import Mathlib

/- Verification development for the HSEConsultBot repository.

   Embedded components:
   - RateLimiter (src/utils/rate_limiter.py): sliding-window request throttling.
   - KnowledgeBase (src/services/knowledge_base.py): FAQ similarity search,
     answer selection with URL validation, and answer formatting.

   Modelling conventions:
   - Python datetime timestamps are modelled as rationals, measured in seconds
     (datetime arithmetic with timedelta(seconds=w) is exact to sub-second
     precision; total_seconds() yields the same rational difference).
   - Python floats are modelled as rationals.  Every float computation a claim
     depends on (2*M/T ratios, Jaccard quotients of equal integers, and
     1.0*0.6 + 1.0*0.4, which is exactly 1.0 in IEEE double precision) is exact
     at the points the claims exercise, so the rational model agrees with the
     Python float semantics there.
   - The in-memory dict-of-dict request history is modelled as a total function
     with default []; Python initialises missing keys to [] on demand, which is
     extensionally the same.
   - Python exceptions are modelled with Option: a result of none marks a point
     where the Python code would raise (the history[0] IndexError path). -/

-- ===========================================================================
-- RateLimiter (src/utils/rate_limiter.py)
-- ===========================================================================

/-- Policy record, from the RateLimit dataclass (rate_limiter.py lines 13-18). -/
structure RateLimit where
  max_requests : Nat
  window_seconds : Nat
  name : String
  deriving DecidableEq

/-- RateLimiter state: request_history maps user id and limit-category name to
the recorded timestamps (rate_limiter.py line 30); limits is the policy table
fixed in __init__ (lines 33-61). -/
structure RateLimiter where
  request_history : Nat → String → List ℚ
  limits : String → Option RateLimit

/-- The default policy table from RateLimiter.__init__ (lines 33-61). -/
def defaultLimits : String → Option RateLimit := fun lt =>
  if lt = "question" then some ⟨10, 60, "обычные вопросы"⟩
  else if lt = "assistant_question" then some ⟨5, 60, "вопросы к нейроассистенту"⟩
  else if lt = "expand_answer" then some ⟨3, 60, "расширенные ответы"⟩
  else if lt = "global" then some ⟨20, 300, "все запросы"⟩
  else none

/-- A freshly constructed RateLimiter: empty history, default policy table. -/
def initRateLimiter : RateLimiter := ⟨fun _ _ => [], defaultLimits⟩

/-- Point update of the history at one (user, category) pair, modelling the
in-place mutation history[:] = ... and dict insertion. -/
def setHist (rl : RateLimiter) (user : Nat) (lt : String) (h : List ℚ) : RateLimiter :=
  { rl with request_history := fun u c =>
      if u = user ∧ c = lt then h else rl.request_history u c }

/-- Purge of expired entries (rate_limiter.py lines 128-129):
history[:] = [ts for ts in history if ts > cutoff_time], cutoff = now - window. -/
def purgeOld (window : Nat) (now : ℚ) (history : List ℚ) : List ℚ :=
  history.filter (fun ts => now - (window : ℚ) < ts)

/-- Python int() on a rational: truncation toward zero, modelling
int((wait_until - now).total_seconds()) at line 136. -/
def truncRat (q : ℚ) : Int := if q < 0 then -(⌊-q⌋) else ⌊q⌋

/-- RateLimiter._check_specific_limit (lines 95-152).  Returns none where the
Python code would raise (history[0] on an empty purged history, reachable only
for a policy with max_requests = 0, which the fixed table never contains).
The Option Int in the result is the wait-seconds figure interpolated into the
human-readable rate-limit message; the message is None exactly when this
component is none.  The two dict-initialisation steps (lines 118-122) are
invisible in the total-function model of request_history. -/
def _check_specific_limit (rl : RateLimiter) (user : Nat) (lt : String) (now : ℚ) :
    Option (RateLimiter × Bool × Option Int) :=
  match rl.limits lt with
  | none => some (rl, true, none)
  | some limit =>
    let history := purgeOld limit.window_seconds now (rl.request_history user lt)
    let rl1 := setHist rl user lt history
    if limit.max_requests ≤ history.length then
      match history with
      | [] => none
      | oldest :: _ =>
        let wait_seconds := truncRat (oldest + (limit.window_seconds : ℚ) - now) + 1
        some (rl1, false, some wait_seconds)
    else some (rl1, true, none)

/-- RateLimiter.check_rate_limit (lines 65-93): category-specific check first,
then the global policy when check_global is set.  The Python code reads
datetime.now() separately inside each specific check; the model passes the
same instant to both, which no claim distinguishes. -/
def check_rate_limit (rl : RateLimiter) (user : Nat) (lt : String)
    (check_global : Bool) (now : ℚ) : Option (RateLimiter × Bool × Option Int) :=
  match _check_specific_limit rl user lt now with
  | none => none
  | some (rl1, allowed, message) =>
    if allowed = false then some (rl1, false, message)
    else if check_global then
      match _check_specific_limit rl1 user "global" now with
      | none => none
      | some (rl2, allowed2, message2) =>
        if allowed2 = false then some (rl2, false, message2)
        else some (rl2, true, none)
    else some (rl1, true, none)

/-- RateLimiter.record_request (lines 154-186): append now to the category
history and, when record_global is set, to the "global" history.  No purging
happens here. -/
def record_request (rl : RateLimiter) (user : Nat) (lt : String)
    (record_global : Bool) (now : ℚ) : RateLimiter :=
  let rl1 := setHist rl user lt (rl.request_history user lt ++ [now])
  if record_global then
    setHist rl1 user "global" (rl1.request_history user "global" ++ [now])
  else rl1

/-- RateLimiter.get_remaining_requests (lines 188-221).  The Python early
returns for an absent user or category return max_requests without purging;
in the total-function model an absent history is [] and the purge path gives
the same value, so the single purge path is extensionally faithful. -/
def get_remaining_requests (rl : RateLimiter) (user : Nat) (lt : String) (now : ℚ) :
    RateLimiter × Int :=
  match rl.limits lt with
  | none => (rl, 0)
  | some limit =>
    let history := purgeOld limit.window_seconds now (rl.request_history user lt)
    let rl1 := setHist rl user lt history
    (rl1, max 0 ((limit.max_requests : Int) - history.length))

/-- RateLimiter.clear_user_history (lines 223-232): drop every category for
the user (deleting the user key = resetting to the empty default). -/
def clear_user_history (rl : RateLimiter) (user : Nat) : RateLimiter :=
  { rl with request_history := fun u c =>
      if u = user then [] else rl.request_history u c }

/-- RateLimiter.cleanup_old_history (lines 234-260): prune entries older than
days in every history; removing users whose histories are all empty is
invisible in the total-function model. -/
def cleanup_old_history (rl : RateLimiter) (days : Nat) (now : ℚ) : RateLimiter :=
  { rl with request_history := fun u c =>
      purgeOld (days * 86400) now (rl.request_history u c) }

/-- Projection of a check result onto the observable verdict (allowed flag and
wait-seconds figure), discarding the state. -/
def checkVerdict (r : Option (RateLimiter × Bool × Option Int)) : Option (Bool × Option Int) :=
  r.map (fun x => (x.2.1, x.2.2))

/-- The state after a specific-limit check (identity on the none path). -/
def checkStateAfter (rl : RateLimiter) (user : Nat) (lt : String) (now : ℚ) : RateLimiter :=
  match _check_specific_limit rl user lt now with
  | some (rl1, _, _) => rl1
  | none => rl

-- ===========================================================================
-- RateLimiter: helper lemmas
-- ===========================================================================

/-- The history at the updated pair after setHist is the new list. -/
theorem setHist_same (rl : RateLimiter) (user : Nat) (lt : String) (h : List ℚ) :
    (setHist rl user lt h).request_history user lt = h := by
  simp [setHist]

/-- setHist does not change the policy table. -/
theorem setHist_limits (rl : RateLimiter) (user : Nat) (lt : String) (h : List ℚ) :
    (setHist rl user lt h).limits = rl.limits := rfl

/-- Filtering out a present element that fails the predicate strictly shrinks a list. -/
theorem length_filter_lt_of_mem_false {α : Type} (p : α → Bool) {l : List α} {a : α}
    (ha : a ∈ l) (hpa : p a = false) : (l.filter p).length < l.length := by
  induction l with
  | nil => cases ha
  | cons b t ih =>
    rcases List.mem_cons.mp ha with rfl | hat
    · have h1 := List.length_filter_le p t
      simp [List.filter_cons, hpa]
      omega
    · by_cases hb : p b = true
      · have := ih hat
        simp [List.filter_cons, hb]
        omega
      · have := ih hat
        have h1 := List.length_filter_le p t
        simp [List.filter_cons, hb]
        omega

/-- Every configured policy in the default table requires at least one request. -/
theorem defaultLimits_max_pos (c : String) (pol : RateLimit)
    (h : defaultLimits c = some pol) : 1 ≤ pol.max_requests := by
  unfold defaultLimits at h
  split at h
  · cases h
    decide
  · split at h
    · cases h
      decide
    · split at h
      · cases h
        decide
      · split at h
        · cases h
          decide
        · cases h

/-- Shape of a rejected specific check. -/
theorem check_specific_reject (rl : RateLimiter) (user : Nat) (lt : String)
    (limit : RateLimit) (now oldest : ℚ) (rest : List ℚ)
    (hpol : rl.limits lt = some limit)
    (hc : purgeOld limit.window_seconds now (rl.request_history user lt) = oldest :: rest)
    (hlen : limit.max_requests ≤ (oldest :: rest).length) :
    _check_specific_limit rl user lt now
      = some (setHist rl user lt (oldest :: rest), false,
          some (truncRat (oldest + (limit.window_seconds : ℚ) - now) + 1)) := by
  simp only [_check_specific_limit, hpol, hc]
  rw [if_pos hlen]

/-- Shape of an allowed specific check for a configured category. -/
theorem check_specific_allow (rl : RateLimiter) (user : Nat) (lt : String)
    (limit : RateLimit) (now : ℚ)
    (hpol : rl.limits lt = some limit)
    (hlt : (purgeOld limit.window_seconds now (rl.request_history user lt)).length
      < limit.max_requests) :
    _check_specific_limit rl user lt now
      = some (setHist rl user lt
          (purgeOld limit.window_seconds now (rl.request_history user lt)), true, none) := by
  simp only [_check_specific_limit, hpol]
  rw [if_neg (by omega)]

/-- isSome of a specific check whenever every policy the category can resolve to
admits at least one request. -/
theorem check_specific_isSome (rl : RateLimiter) (user : Nat) (lt : String) (now : ℚ)
    (hpos : ∀ pol, rl.limits lt = some pol → 1 ≤ pol.max_requests) :
    (_check_specific_limit rl user lt now).isSome := by
  cases hl : rl.limits lt with
  | none => simp [_check_specific_limit, hl]
  | some pol =>
    by_cases hle : pol.max_requests
        ≤ (purgeOld pol.window_seconds now (rl.request_history user lt)).length
    · cases hp : purgeOld pol.window_seconds now (rl.request_history user lt) with
      | nil =>
        exfalso
        have h1 := hpos pol hl
        rw [hp] at hle
        simp at hle
        omega
      | cons a t =>
        rw [hp] at hle
        rw [check_specific_reject rl user lt pol now a t hl hp hle]
        rfl
    · rw [check_specific_allow rl user lt pol now hl (by omega)]
      rfl

/-- The state returned by a specific check keeps the policy table unchanged. -/
theorem check_specific_limits_eq (rl : RateLimiter) (user : Nat) (lt : String) (now : ℚ)
    (res : RateLimiter × Bool × Option Int)
    (hres : _check_specific_limit rl user lt now = some res) : res.1.limits = rl.limits := by
  cases hl : rl.limits lt with
  | none =>
    simp only [_check_specific_limit, hl] at hres
    cases hres
    rfl
  | some pol =>
    by_cases hle : pol.max_requests
        ≤ (purgeOld pol.window_seconds now (rl.request_history user lt)).length
    · cases hp : purgeOld pol.window_seconds now (rl.request_history user lt) with
      | nil =>
        simp only [_check_specific_limit, hl, hp] at hres
        rw [if_pos (by rw [hp] at hle; simpa using hle)] at hres
        cases hres
      | cons a t =>
        rw [hp] at hle
        rw [check_specific_reject rl user lt pol now a t hl hp hle] at hres
        cases hres
        rfl
    · rw [check_specific_allow rl user lt pol now hl (by omega)] at hres
      cases hres
      rfl

-- ===========================================================================
-- Witness states for the rate-limiter claims
-- ===========================================================================

/-- A limiter whose user 42 has ten "question" requests recorded at t = 0. -/
def rlTenAtZero : RateLimiter :=
  { request_history := fun u c => if u = 42 ∧ c = "question" then List.replicate 10 0 else [],
    limits := defaultLimits }

/-- A limiter whose user 42 has ten "question" requests recorded at t = 1/2. -/
def rlTenAtHalf : RateLimiter :=
  { request_history := fun u c => if u = 42 ∧ c = "question" then List.replicate 10 (1/2) else [],
    limits := defaultLimits }

/-- A limiter whose user 7 has twenty "global" requests recorded at t = 0. -/
def rlGlobalFull : RateLimiter :=
  { request_history := fun u c => if u = 7 ∧ c = "global" then List.replicate 20 0 else [],
    limits := defaultLimits }

/-- A limiter whose user 1 has "question" requests at t = 0 and t = 50. -/
def rlStale : RateLimiter :=
  { request_history := fun u c => if u = 1 ∧ c = "question" then [0, 50] else [],
    limits := defaultLimits }

-- ===========================================================================
-- C1
-- ===========================================================================

/-- Claim C1: for a configured category, when exactly max_requests timestamps are
recorded and all lie inside the window at the time of the check, the check is
rejected; and at any later check time at which some recorded timestamp (in
particular the oldest) is strictly older than window_seconds, the check is
allowed again. -/
theorem check_limit_window_behavior
    (rl : RateLimiter) (user : Nat) (lt : String) (limit : RateLimit) (now now2 : ℚ)
    (hpol : rl.limits lt = some limit)
    (hmax : 1 ≤ limit.max_requests)
    (hlen : (rl.request_history user lt).length = limit.max_requests) :
    ((∀ ts ∈ rl.request_history user lt, now - (limit.window_seconds : ℚ) < ts) →
      ∃ w : Int, checkVerdict (_check_specific_limit rl user lt now) = some (false, some w))
    ∧ ((∃ ts ∈ rl.request_history user lt, ts < now2 - (limit.window_seconds : ℚ)) →
      checkVerdict (_check_specific_limit rl user lt now2) = some (true, none)) := by
  constructor
  · intro hall
    have hfil : purgeOld limit.window_seconds now (rl.request_history user lt)
        = rl.request_history user lt := by
      apply List.filter_eq_self.mpr
      intro a ha
      simpa using hall a ha
    obtain ⟨c, t, hct⟩ : ∃ c t, rl.request_history user lt = c :: t := by
      cases h : rl.request_history user lt with
      | nil => rw [h] at hlen; simp at hlen; omega
      | cons c t => exact ⟨c, t, rfl⟩
    have hfil2 : purgeOld limit.window_seconds now (rl.request_history user lt) = c :: t :=
      hfil.trans hct
    refine ⟨truncRat (c + (limit.window_seconds : ℚ) - now) + 1, ?_⟩
    rw [check_specific_reject rl user lt limit now c t hpol hfil2
      (by rw [hct] at hlen; simp at hlen ⊢; omega)]
    rfl
  · intro ⟨ts, hts, hold⟩
    have hp : (fun x : ℚ => decide (now2 - (limit.window_seconds : ℚ) < x)) ts = false := by
      simp only [decide_eq_false_iff_not]
      intro hcon
      linarith
    have hlt : (purgeOld limit.window_seconds now2 (rl.request_history user lt)).length
        < limit.max_requests := by
      have h2 := length_filter_lt_of_mem_false
        (fun x : ℚ => decide (now2 - (limit.window_seconds : ℚ) < x)) hts hp
      unfold purgeOld
      omega
    rw [check_specific_allow rl user lt limit now2 hpol hlt]
    rfl

/-- Witness for C1: ten "question" requests at t = 0 for user 42 are rejected at
t = 0 and allowed again at t = 61. -/
theorem check_limit_window_behavior_witness :
    checkVerdict (_check_specific_limit rlTenAtZero 42 "question" 0) = some (false, some 61)
    ∧ checkVerdict (_check_specific_limit rlTenAtZero 42 "question" 61) = some (true, none) := by
  constructor
  · with_unfolding_all rfl
  · exact (check_limit_window_behavior rlTenAtZero 42 "question"
      ⟨10, 60, "обычные вопросы"⟩ 0 61 (by with_unfolding_all rfl) (by decide)
      (by with_unfolding_all decide)).2
      ⟨0, by with_unfolding_all decide, by with_unfolding_all decide⟩

-- ===========================================================================
-- C4
-- ===========================================================================

/-- Counterexample for C4 as stated: with ten "question" requests at t = 0 and a
check at t = 0, the remaining time is exactly 60 whole seconds; the message
reports 61 seconds, while the claimed ceiling formula (with minimum 1) gives 60. -/
theorem wait_seconds_ceiling_counterexample :
    checkVerdict (_check_specific_limit rlTenAtZero 42 "question" 0) = some (false, some 61)
    ∧ (61 : Int) ≠ max 1 ⌈(0 : ℚ) + ((60 : Nat) : ℚ) - 0⌉ := by
  constructor
  · with_unfolding_all rfl
  · with_unfolding_all decide

/-- Claim C4 (amended): when a check is rejected, the seconds figure in the wait
message is the truncation of oldest + window_seconds - now plus one, where
oldest is the head of the purged history; this value is at least 1, and it
equals the rounded-up remaining time whenever that remaining time is not an
exact whole number of seconds (at exact whole seconds it exceeds the ceiling
by one, as the counterexample shows). -/
theorem wait_seconds_formula
    (rl : RateLimiter) (user : Nat) (lt : String) (limit : RateLimit)
    (now oldest : ℚ) (rest : List ℚ)
    (hpol : rl.limits lt = some limit)
    (hc : purgeOld limit.window_seconds now (rl.request_history user lt) = oldest :: rest)
    (hlen : limit.max_requests ≤ (oldest :: rest).length) :
    checkVerdict (_check_specific_limit rl user lt now)
      = some (false, some (⌊oldest + (limit.window_seconds : ℚ) - now⌋ + 1))
    ∧ 1 ≤ ⌊oldest + (limit.window_seconds : ℚ) - now⌋ + 1
    ∧ (Int.fract (oldest + (limit.window_seconds : ℚ) - now) ≠ 0 →
        ⌊oldest + (limit.window_seconds : ℚ) - now⌋ + 1
          = ⌈oldest + (limit.window_seconds : ℚ) - now⌉) := by
  have hmem : oldest ∈ purgeOld limit.window_seconds now (rl.request_history user lt) := by
    rw [hc]
    exact List.mem_cons_self oldest rest
  have hpos : 0 < oldest + (limit.window_seconds : ℚ) - now := by
    unfold purgeOld at hmem
    have := (List.mem_filter.mp hmem).2
    have h2 : now - (limit.window_seconds : ℚ) < oldest := by simpa using this
    linarith
  have htr : truncRat (oldest + (limit.window_seconds : ℚ) - now)
      = ⌊oldest + (limit.window_seconds : ℚ) - now⌋ := by
    unfold truncRat
    rw [if_neg (by linarith)]
  refine ⟨?_, ?_, ?_⟩
  · rw [check_specific_reject rl user lt limit now oldest rest hpol hc hlen, htr]
    rfl
  · have h3 : (0 : Int) ≤ ⌊oldest + (limit.window_seconds : ℚ) - now⌋ :=
      Int.floor_nonneg.mpr (le_of_lt hpos)
    omega
  · intro hfr
    have hne : (⌊oldest + (limit.window_seconds : ℚ) - now⌋ : ℚ)
        ≠ oldest + (limit.window_seconds : ℚ) - now := by
      intro he
      apply hfr
      rw [Int.fract, ← he, Int.floor_intCast]
      ring
    have hlt2 : (⌊oldest + (limit.window_seconds : ℚ) - now⌋ : ℚ)
        < oldest + (limit.window_seconds : ℚ) - now :=
      lt_of_le_of_ne (Int.floor_le _) hne
    have h4 : ⌊oldest + (limit.window_seconds : ℚ) - now⌋
        < ⌈oldest + (limit.window_seconds : ℚ) - now⌉ := Int.lt_ceil.mpr hlt2
    have h5 := Int.ceil_le_floor_add_one (oldest + (limit.window_seconds : ℚ) - now)
    omega

/-- Witness for the amended C4: ten "question" requests at t = 1/2 checked at
t = 0 leave 60.5 seconds; the message says 61, which is the ceiling of 60.5. -/
theorem wait_seconds_formula_witness :
    checkVerdict (_check_specific_limit rlTenAtHalf 42 "question" 0) = some (false, some 61)
    ∧ (61 : Int) = ⌈(1 : ℚ)/2 + ((60 : Nat) : ℚ) - 0⌉ := by
  have h := wait_seconds_formula rlTenAtHalf 42 "question" ⟨10, 60, "обычные вопросы"⟩ 0
    (1/2) (List.replicate 9 (1/2)) (by with_unfolding_all rfl) (by with_unfolding_all rfl)
    (by decide)
  have e1 : (⌊(1 : ℚ)/2 + ((60 : Nat) : ℚ) - 0⌋ + 1 : Int) = 61 := by
    with_unfolding_all rfl
  constructor
  · rw [← e1]
    exact h.1
  · rw [← h.2.2 (by with_unfolding_all decide), e1]

-- ===========================================================================
-- C6
-- ===========================================================================

/-- Counterexample for C6 as stated: starting from a fresh limiter, record at
t = 5, check at t = 59.5 (allowed), then record at t = 65.5.  Right after that
record call the stored history still contains the timestamp 5, which is older
than the 60-second window relative to t = 65.5: record_request never purges. -/
theorem record_does_not_purge_counterexample :
    (5 : ℚ) ∈ (record_request (checkStateAfter (record_request initRateLimiter 1 "question" true 5)
        1 "question" (119/2)) 1 "question" true (131/2)).request_history 1 "question"
    ∧ ¬ ((131 : ℚ)/2 - ((60 : Nat) : ℚ) < 5) := by
  constructor
  · with_unfolding_all decide
  · with_unfolding_all decide

/-- Claim C6 (amended): after every check of a configured category, the stored
history of the evaluated (user, category) pair contains no timestamp outside the
window; record_request, however, appends without purging, so the invariant
holds after checks only (the counterexample shows it fails after records). -/
theorem check_purges_evaluated_pair
    (rl : RateLimiter) (user : Nat) (lt : String) (limit : RateLimit) (now : ℚ)
    (res : RateLimiter × Bool × Option Int)
    (hpol : rl.limits lt = some limit)
    (hres : _check_specific_limit rl user lt now = some res) :
    ∀ ts ∈ res.1.request_history user lt, now - (limit.window_seconds : ℚ) < ts := by
  intro ts hts
  have hstate : res.1 = setHist rl user lt
      (purgeOld limit.window_seconds now (rl.request_history user lt)) := by
    by_cases hle : limit.max_requests
        ≤ (purgeOld limit.window_seconds now (rl.request_history user lt)).length
    · cases hp : purgeOld limit.window_seconds now (rl.request_history user lt) with
      | nil =>
        simp only [_check_specific_limit, hpol, hp] at hres
        rw [if_pos (by rw [hp] at hle; simpa using hle)] at hres
        cases hres
      | cons a t =>
        rw [hp] at hle
        rw [check_specific_reject rl user lt limit now a t hpol hp hle] at hres
        cases hres
        rfl
    · rw [check_specific_allow rl user lt limit now hpol (by omega)] at hres
      cases hres
      rfl
  rw [hstate, setHist_same] at hts
  unfold purgeOld at hts
  simpa using (List.mem_filter.mp hts).2

/-- Witness for the amended C6: a check at t = 100 on a history [0, 50] purges
the expired timestamp, and every remaining entry is inside the window. -/
theorem check_purges_evaluated_pair_witness :
    checkVerdict (_check_specific_limit rlStale 1 "question" 100) = some (true, none)
    ∧ (100 : ℚ) - ((60 : Nat) : ℚ) < 50 := by
  constructor
  · with_unfolding_all rfl
  · exact check_purges_evaluated_pair rlStale 1 "question" ⟨10, 60, "обычные вопросы"⟩ 100
      (setHist rlStale 1 "question" [50], true, none) (by with_unfolding_all rfl)
      (by with_unfolding_all rfl) 50 (by with_unfolding_all decide)

-- ===========================================================================
-- C8
-- ===========================================================================

/-- Counterexample for C8 as stated: user 7 has exhausted the global policy
(twenty requests at t = 0); a check of the unknown category "foo" with the
default global checking enabled is rejected by the global policy, so check does
not return (allowed=true, null) for every user. -/
theorem unknown_category_global_reject_counterexample :
    rlGlobalFull.limits "foo" = none
    ∧ checkVerdict (check_rate_limit rlGlobalFull 7 "foo" true 0) = some (false, some 301) := by
  constructor
  · with_unfolding_all rfl
  · with_unfolding_all rfl

/-- Claim C8 (amended): a category with no configured policy passes the
category-specific evaluation unchanged with message null, and the public check
with global checking disabled returns (allowed=true, null); with global checking
enabled the global policy may still reject (see the counterexample).  No
operation raises: in particular the check operations always return a value
whenever every configured policy admits at least one request, which holds for
the default table; the remaining operations are total by construction. -/
theorem unknown_category_allowed
    (rl : RateLimiter) (user : Nat) (lt : String) (now : ℚ) :
    (rl.limits lt = none → _check_specific_limit rl user lt now = some (rl, true, none))
    ∧ (rl.limits lt = none → check_rate_limit rl user lt false now = some (rl, true, none))
    ∧ ((∀ c pol, rl.limits c = some pol → 1 ≤ pol.max_requests) →
        (check_rate_limit rl user lt true now).isSome
        ∧ (check_rate_limit rl user lt false now).isSome) := by
  refine ⟨?_, ?_, ?_⟩
  · intro h
    simp [_check_specific_limit, h]
  · intro h
    have h1 : _check_specific_limit rl user lt now = some (rl, true, none) := by
      simp [_check_specific_limit, h]
    simp [check_rate_limit, h1]
  · intro hpos
    have h1 := check_specific_isSome rl user lt now (fun pol hp => hpos lt pol hp)
    obtain ⟨res, hres⟩ := Option.isSome_iff_exists.mp h1
    obtain ⟨rl1, allowed, message⟩ := res
    have hlim : rl1.limits = rl.limits := check_specific_limits_eq rl user lt now _ hres
    constructor
    · cases allowed with
      | false => simp [check_rate_limit, hres]
      | true =>
        have h2 := check_specific_isSome rl1 user "global" now
          (fun pol hp => hpos "global" pol (by rw [← hlim]; exact hp))
        obtain ⟨res2, hres2⟩ := Option.isSome_iff_exists.mp h2
        obtain ⟨rl2, allowed2, message2⟩ := res2
        cases allowed2 with
        | false => simp [check_rate_limit, hres, hres2]
        | true => simp [check_rate_limit, hres, hres2]
    · cases allowed with
      | false => simp [check_rate_limit, hres]
      | true => simp [check_rate_limit, hres]

/-- Witness for the amended C8: the unknown category "foo" on a fresh limiter
passes the specific evaluation and the public check without global checking,
and the public check with global checking returns a value. -/
theorem unknown_category_allowed_witness :
    check_rate_limit initRateLimiter 7 "foo" false 0 = some (initRateLimiter, true, none)
    ∧ (check_rate_limit initRateLimiter 7 "foo" true 0).isSome := by
  constructor
  · exact (unknown_category_allowed initRateLimiter 7 "foo" 0).2.1 (by with_unfolding_all rfl)
  · exact ((unknown_category_allowed initRateLimiter 7 "foo" 0).2.2 defaultLimits_max_pos).1

-- ===========================================================================
-- C10
-- ===========================================================================

/-- Claim C10: get_remaining_requests returns 0 for a category with no
configured policy, even though the specific check passes such a category
through as allowed; for a configured category with no recorded history it
returns that category's max_requests. -/
theorem remaining_requests_defaults
    (rl : RateLimiter) (user : Nat) (lt : String) (now : ℚ) :
    (rl.limits lt = none →
      (get_remaining_requests rl user lt now).2 = 0
      ∧ _check_specific_limit rl user lt now = some (rl, true, none))
    ∧ (∀ limit, rl.limits lt = some limit → rl.request_history user lt = [] →
      (get_remaining_requests rl user lt now).2 = (limit.max_requests : Int)) := by
  constructor
  · intro h
    constructor
    · simp [get_remaining_requests, h]
    · simp [_check_specific_limit, h]
  · intro limit hpol hnil
    simp only [get_remaining_requests, hpol, hnil]
    unfold purgeOld
    simp

/-- Witness for C10: on a fresh limiter, the unknown category "foo" has 0
remaining requests while its check is allowed, and the configured category
"question" with no history has 10 remaining. -/
theorem remaining_requests_defaults_witness :
    ((get_remaining_requests initRateLimiter 3 "foo" 0).2 = 0
      ∧ _check_specific_limit initRateLimiter 3 "foo" 0 = some (initRateLimiter, true, none))
    ∧ (get_remaining_requests initRateLimiter 3 "question" 0).2 = ((10 : Nat) : Int) := by
  constructor
  · exact (remaining_requests_defaults initRateLimiter 3 "foo" 0).1 (by with_unfolding_all rfl)
  · exact (remaining_requests_defaults initRateLimiter 3 "question" 0).2
      ⟨10, 60, "обычные вопросы"⟩ (by with_unfolding_all rfl) rfl

-- ===========================================================================
-- KnowledgeBase (src/services/knowledge_base.py)
-- ===========================================================================

/-- One FAQ record, the shape loaded from the JSON corpus. -/
structure FAQEntry where
  question : String
  short_answer : String
  legal_reference : String
  legal_url : String
  block : String
  current_as_of : String
  deriving DecidableEq

/-- Python str.lower() on one character, restricted to ASCII and the basic
Cyrillic range the corpus uses; characters outside these ranges are kept
(no claim depends on case folding beyond them). -/
def pyLowerChar (c : Char) : Char :=
  if 'A' ≤ c ∧ c ≤ 'Z' then Char.ofNat (c.toNat + 32)
  else if 'А' ≤ c ∧ c ≤ 'Я' then Char.ofNat (c.toNat + 32)
  else if c = 'Ё' then 'ё'
  else c

/-- Python str.lower() on a string. -/
def pyLower (s : String) : String := String.mk (s.toList.map pyLowerChar)

/-- Python str.split() whitespace set (ASCII part). -/
def isPySpace (c : Char) : Bool :=
  c = ' ' || c = '\t' || c = '\n' || c = '\r' || c = '\x0b' || c = '\x0c'

/-- Helper for splitWs: accumulates the current word (reversed). -/
def splitWsAux : List Char → List Char → List String
  | [], acc => if acc.isEmpty then [] else [String.mk acc.reverse]
  | c :: cs, acc =>
    if isPySpace c then
      if acc.isEmpty then splitWsAux cs []
      else String.mk acc.reverse :: splitWsAux cs []
    else splitWsAux cs (c :: acc)

/-- Python str.split() with no arguments: split on whitespace runs, no empty
words. -/
def splitWs (s : String) : List String := splitWsAux s.toList []

/-- Whether pat occurs at the head of s. -/
def listStartsWith : List Char → List Char → Bool
  | _, [] => true
  | [], _ :: _ => false
  | c :: cs, p :: ps => c = p && listStartsWith cs ps

/-- Whether pat occurs anywhere inside s (Python substring test). -/
def listContainsSub : List Char → List Char → Bool
  | [], p => p.isEmpty
  | c :: cs, p => listStartsWith (c :: cs) p || listContainsSub cs p

/-- Python "pat in s" on strings. -/
def containsStr (s pat : String) : Bool := listContainsSub s.toList pat.toList

-- The similarity scorer uses difflib.SequenceMatcher(None, a, b).ratio(),
-- whose implementation is standard-library code outside this repository.

/-- Modelled from the spec: length of the common prefix of two character
lists, the elementary step of the longest-matching-block search. -/
def commonLen : List Char → List Char → Nat
  | x :: xs, y :: ys => if x = y then commonLen xs ys + 1 else 0
  | _, _ => 0

/-- Modelled from the spec: the size of the candidate match starting at
positions i of a and j of b, clipped to the window [alo,ahi) x [blo,bhi). -/
def candK (a b : List Char) (ahi bhi i j : Nat) : Nat :=
  min (commonLen (a.drop i) (b.drop j)) (min (ahi - i) (bhi - j))

/-- Python range(s, s+n) as a list. -/
def natRange : Nat → Nat → List Nat
  | _, 0 => []
  | s, n + 1 => s :: natRange (s + 1) n

/-- A matching block: start in a, start in b, size. -/
structure MatchB where
  i : Nat
  j : Nat
  k : Nat
  deriving DecidableEq

/-- Modelled from the spec: the greedy longest-common-substring matcher.  It
scans candidate start positions in ascending order and keeps the first block
whose size strictly exceeds the best so far, so the result is the leftmost
longest matching block of the window, the block SequenceMatcher's
find_longest_match selects (the spec describes the classic matcher without
junk heuristics; on equal inputs, the case claim C5 exercises, the
heuristic-free matcher and difflib agree). -/
def flmInner (a b : List Char) (ahi bhi i : Nat) (best : MatchB) (j : Nat) : MatchB :=
  let k := candK a b ahi bhi i j
  if best.k < k then ⟨i, j, k⟩ else best

/-- One row of the scan: fold the candidate starts j over the b window. -/
def flmOuter (a b : List Char) (ahi bhi blo : Nat) (best : MatchB) (i : Nat) : MatchB :=
  (natRange blo (bhi - blo)).foldl (flmInner a b ahi bhi i) best

def findLongestMatch (a b : List Char) (alo ahi blo bhi : Nat) : MatchB :=
  (natRange alo (ahi - alo)).foldl (flmOuter a b ahi bhi blo) ⟨alo, blo, 0⟩

/-- Modelled from the spec: total size of all matching blocks, the recursive
divide step of get_matching_blocks.  Each recursive call strictly shrinks
ahi - alo (the selected block has i + k ≤ ahi and k ≥ 1, so both sub-windows
are shorter), hence fuel = initial window size always suffices and the fuel
branch returning 0 is never reached by matchingTotal below. -/
def matchingTotalF : Nat → List Char → List Char → Nat → Nat → Nat → Nat → Nat
  | 0, _, _, _, _, _, _ => 0
  | fuel + 1, a, b, alo, ahi, blo, bhi =>
    let m := findLongestMatch a b alo ahi blo bhi
    if 0 < m.k then
      m.k + (if alo < m.i ∧ blo < m.j then matchingTotalF fuel a b alo m.i blo m.j else 0)
          + (if m.i + m.k < ahi ∧ m.j + m.k < bhi
              then matchingTotalF fuel a b (m.i + m.k) ahi (m.j + m.k) bhi else 0)
    else 0

/-- Modelled from the spec: total length M of the matching blocks of a and b. -/
def matchingTotal (a b : List Char) : Nat :=
  matchingTotalF a.length a b 0 a.length 0 b.length

/-- Modelled from the spec: the classic ratio 2*M/T, with the empty-input
convention of difflib's _calculate_ratio (ratio 1.0 when both are empty). -/
def ratio (a b : List Char) : ℚ :=
  let length := a.length + b.length
  if length = 0 then 1 else 2 * (matchingTotal a b : ℚ) / (length : ℚ)

/-- The fixed Russian stop-word list (knowledge_base.py lines 113-116). -/
def stop_words : List String :=
  ["что", "как", "где", "когда", "кто", "какой", "какая",
   "какие", "нужно", "можно", "ли", "в", "на", "по", "с",
   "и", "или", "а", "но", "это", "то", "да", "нет", "для",
   "при", "о", "об", "от", "до", "из", "у", "к"]

/-- KnowledgeBase._calculate_similarity (lines 90-130): 0.6 * character ratio
plus 0.4 * keyword Jaccard when both filtered keyword sets are non-empty,
plain character ratio otherwise. -/
def _calculate_similarity (text1 text2 : String) : ℚ :=
  let text1_lower := pyLower text1
  let text2_lower := pyLower text2
  let similarity := ratio text1_lower.toList text2_lower.toList
  let words1_filtered := (splitWs text1_lower).toFinset \ stop_words.toFinset
  let words2_filtered := (splitWs text2_lower).toFinset \ stop_words.toFinset
  if words1_filtered.Nonempty ∧ words2_filtered.Nonempty then
    let intersection := (words1_filtered ∩ words2_filtered).card
    let union := (words1_filtered ∪ words2_filtered).card
    let keyword_similarity : ℚ := if 0 < union then (intersection : ℚ) / (union : ℚ) else 0
    similarity * (6/10) + keyword_similarity * (4/10)
  else similarity

/-- The corpus entries paired with their corpus position and similarity score
against the query (the loop at knowledge_base.py lines 154-161 before the
threshold filter). -/
def scoreAll (faq : List FAQEntry) (query : String) : List (Nat × FAQEntry × ℚ) :=
  faq.enum.map (fun p => (p.1, p.2, _calculate_similarity query p.2.question))

/-- The order used by similarities.sort(key=lambda x: x[1], reverse=True): on
entries tagged with distinct corpus positions, a stable descending sort by
score coincides with the total order (score descending, position ascending). -/
def relOrder (x y : Nat × FAQEntry × ℚ) : Prop :=
  y.2.2 < x.2.2 ∨ (x.2.2 = y.2.2 ∧ x.1 ≤ y.1)

instance : DecidableRel relOrder := fun x y =>
  decidable_of_iff (y.2.2 < x.2.2 ∨ (x.2.2 = y.2.2 ∧ x.1 ≤ y.1)) Iff.rfl

instance : IsTotal (Nat × FAQEntry × ℚ) relOrder where
  total x y := by
    rcases lt_trichotomy x.2.2 y.2.2 with h | h | h
    · exact Or.inr (Or.inl h)
    · rcases Nat.le_total x.1 y.1 with h2 | h2
      · exact Or.inl (Or.inr ⟨h, h2⟩)
      · exact Or.inr (Or.inr ⟨h.symm, h2⟩)
    · exact Or.inl (Or.inl h)

instance : IsTrans (Nat × FAQEntry × ℚ) relOrder where
  trans x y z hxy hyz := by
    rcases hxy with h1 | ⟨h1, h1b⟩
    · rcases hyz with h2 | ⟨h2, h2b⟩
      · exact Or.inl (lt_trans h2 h1)
      · exact Or.inl (h2 ▸ h1)
    · rcases hyz with h2 | ⟨h2, h2b⟩
      · exact Or.inl (h1 ▸ h2)
      · exact Or.inr ⟨h1.trans h2, le_trans h1b h2b⟩

/-- KnowledgeBase.find_relevant_questions (lines 132-167), instrumented with
corpus positions: empty-corpus early return, threshold filter in corpus
order, stable descending sort by score, first top_k results. -/
def find_relevant_idx (faq : List FAQEntry) (query : String) (threshold : ℚ)
    (top_k : Nat) : List (Nat × FAQEntry × ℚ) :=
  if faq.isEmpty then []
  else (((scoreAll faq query).filter (fun p => threshold ≤ p.2.2)).insertionSort
    relOrder).take top_k

/-- KnowledgeBase.find_relevant_questions: the list of (entry, score) pairs the
Python function returns (the corpus positions erased). -/
def find_relevant_questions (faq : List FAQEntry) (query : String) (threshold : ℚ)
    (top_k : Nat) : List (FAQEntry × ℚ) :=
  (find_relevant_idx faq query threshold top_k).map (fun p => (p.2.1, p.2.2))

/-- KnowledgeBase._load_faq (lines 32-54): the loaded corpus replaces faq_data
on success; on a missing file or a parse error faq_data is left as it was.
The source argument stands for the outcome of reading and parsing the JSON
file (none = missing file or parse error). -/
def _load_faq (current : List FAQEntry) (source : Option (List FAQEntry)) : List FAQEntry :=
  match source with
  | none => current
  | some data => data

/-- KnowledgeBase.__init__ (lines 21-30): faq_data starts empty, then _load_faq
runs once. -/
def mkKnowledgeBase (source : Option (List FAQEntry)) : List FAQEntry :=
  _load_faq [] source

/-- KnowledgeBase.reload_faq (lines 49-54): re-run _load_faq on the current
state. -/
def reload_faq (current : List FAQEntry) (source : Option (List FAQEntry)) : List FAQEntry :=
  _load_faq current source

/-- KnowledgeBase.check_url_validity (lines 169-199).  The urlCheck argument is
the outcome of the aiohttp HEAD request for a given URL: (status in [200,400),
some status) on an HTTP response, (false, none) on a network error or timeout
(the except branches).  An empty or whitespace-only URL short-circuits to
(false, none) without any request. -/
def check_url_validity (urlCheck : String → Bool × Option Int) (url : String) :
    Bool × Option Int :=
  if url = "" ∨ url.trim = "" then (false, none) else urlCheck url

/-- The dictionary KnowledgeBase.get_answer_with_validation returns
(lines 237-247). -/
structure AnswerData where
  question : String
  answer : String
  legal_reference : String
  legal_url : String
  block : String
  current_as_of : String
  similarity_score : ℚ
  url_valid : Option Bool
  url_status : Option Int
  deriving DecidableEq

/-- KnowledgeBase.get_answer_with_validation (lines 201-247): best match at
threshold 0.5 / top_k 1, absolute floor 0.3, optional URL check when the
entry has a non-empty legal_url. -/
def get_answer_with_validation (faq : List FAQEntry) (query : String)
    (check_urls : Bool) (urlCheck : String → Bool × Option Int) : Option AnswerData :=
  match find_relevant_questions faq query (1/2) 1 with
  | [] => none
  | (best_match, similarity) :: _ =>
    if similarity < 3/10 then none
    else
      let cu := if check_urls ∧ ¬ best_match.legal_url = ""
        then some (check_url_validity urlCheck best_match.legal_url) else none
      some {
        question := best_match.question,
        answer := best_match.short_answer,
        legal_reference := best_match.legal_reference,
        legal_url := best_match.legal_url,
        block := best_match.block,
        current_as_of := best_match.current_as_of,
        similarity_score := similarity,
        url_valid := cu.map (fun p => p.1),
        url_status := cu.bind (fun p => p.2) }

/-- The government-domain allow-list (knowledge_base.py lines 324-350),
including the duplicated gost.ru entry of the source. -/
def government_domains : List String :=
  ["kremlin.ru", "government.ru", "duma.gov.ru", "council.gov.ru",
   "minjust.gov.ru", "mintrud.gov.ru", "rostrud.gov.ru", "gks.ru",
   "consultant.ru", "pravo.gov.ru", "fzrf.sudrf.ru", "docs.cntd.ru",
   "rulaws.ru", "zakonrf.info", "fstec.ru", "fsb.ru", "mvd.ru",
   "rosgvard.ru", "gost.ru", "rospotrebnadzor.ru", "roszdravnadzor.gov.ru",
   "gost.ru", "minzdrav.gov.ru", "edu.gov.ru", "minobrnauki.gov.ru"]

/-- KnowledgeBase._is_government_source (lines 310-367): substring tests of
the lowercased URL against the allow-list, then against ".gov.ru", then the
redundant keyword check of lines 363-365. -/
def _is_government_source (url : String) : Bool :=
  if url = "" then false
  else
    let url_lower := pyLower url
    government_domains.any (fun d => containsStr url_lower d)
    || containsStr url_lower ".gov.ru"
    || ["pravo.gov.ru", "fzrf.sudrf.ru"].any (fun d => containsStr url_lower d)

/-- Scan for the first regex match of st-dot-space*-digits(.digits)? starting
at this position (knowledge_base.py line 382). -/
def matchArticleAt : List Char → Option (List Char)
  | 'с' :: 'т' :: '.' :: rest =>
    let rest2 := rest.dropWhile (fun c => isPySpace c)
    let ds := rest2.takeWhile Char.isDigit
    if ds.isEmpty then none
    else
      match rest2.dropWhile Char.isDigit with
      | '.' :: rest3 =>
        let ds2 := rest3.takeWhile Char.isDigit
        if ds2.isEmpty then some ds else some (ds ++ '.' :: ds2)
      | _ => some ds
  | _ => none

/-- re.search: leftmost match of the article pattern. -/
def searchArticle : List Char → Option (List Char)
  | [] => none
  | c :: cs =>
    match matchArticleAt (c :: cs) with
    | some ds => some ds
    | none => searchArticle cs

/-- KnowledgeBase._extract_article_number (lines 369-390). -/
def _extract_article_number (legal_ref : String) : String :=
  match searchArticle legal_ref.toList with
  | some ds => "st-" ++ String.mk ds
  | none => ""

/-- The generic advisory line of format_answer_for_user. -/
def advisoryNote : String :=
  "<i>ℹ️ Для получения актуальной информации обратитесь к официальным источникам</i>"

/-- Python str() of the url_status value as it appears in the warning line:
the key is always present, so .get returns its value and None prints as None. -/
def statusStr : Option Int → String
  | some n => toString n
  | none => "None"

/-- The similarity percentage of the final line.  Python formats with round
half to even; the claims never exercise an exact half, so round half up is
used. -/
def pctStr (q : ℚ) : String := toString (round (q * 100) : Int) ++ "%"

/-- KnowledgeBase.format_answer_for_user (lines 249-308) as the list of
text_parts the Python code joins with newlines. -/
def format_answer_parts (d : AnswerData) : List String :=
  let legal_ref := d.legal_reference
  let legal_url := d.legal_url
  let legal :=
    if ¬ legal_ref = "" ∧ containsStr legal_ref "ТК РФ" then
      let article_match := _extract_article_number legal_ref
      if ¬ article_match = "" then
        ["<b>Правовая база:</b> " ++ legal_ref,
         "✅ <b>Ссылка:</b> https://www.consultant.ru/document/cons_doc_LAW_34683/"
           ++ article_match ++ "/"]
      else ["<b>Правовая база:</b> " ++ legal_ref, advisoryNote]
    else if ¬ legal_url = "" ∧ _is_government_source legal_url then
      ["<b>Правовая база:</b> " ++ legal_ref,
       (if d.url_valid = some true then "✅" else "⚠️") ++ " <b>Ссылка:</b> " ++ legal_url]
      ++ (if d.url_valid = some false then
            ["<i>⚠️ Внимание: ссылка может быть недоступна (код "
              ++ statusStr d.url_status ++ ")</i>"]
          else [])
    else if ¬ legal_ref = "" then
      ["<b>Правовая база:</b> " ++ legal_ref, advisoryNote]
    else [advisoryNote]
  ["📚 <b>Найдено в базе знаний</b>",
   "<b>Категория:</b> " ++ d.block,
   "",
   "<b>Вопрос:</b> " ++ d.question,
   "",
   "<b>Ответ:</b> " ++ d.answer,
   ""]
  ++ legal
  ++ ["",
      "<i>Актуально на: " ++ d.current_as_of ++ "</i>",
      "<i>Степень совпадения: " ++ pctStr d.similarity_score ++ "</i>"]

/-- KnowledgeBase.format_answer_for_user: the joined text. -/
def format_answer_for_user (d : AnswerData) : String :=
  String.intercalate "\n" (format_answer_parts d)

-- ===========================================================================
-- Matcher lemmas for C5
-- ===========================================================================

/-- A fold that never changes its accumulator returns it unchanged. -/
theorem foldl_fixed {α β : Type} (f : β → α → β) (b : β) :
    ∀ l : List α, (∀ x ∈ l, f b x = b) → l.foldl f b = b
  | [], _ => rfl
  | x :: xs, h => by
    have hx : f b x = b := h x (List.mem_cons_self x xs)
    simp only [List.foldl_cons, hx]
    exact foldl_fixed f b xs (fun y hy => h y (List.mem_cons_of_mem x hy))

/-- The common prefix of a list with itself is the whole list. -/
theorem commonLen_self : ∀ l : List Char, commonLen l l = l.length
  | [] => rfl
  | c :: cs => by simp [commonLen, commonLen_self cs]

/-- Members of natRange s n lie in [s, s + n). -/
theorem mem_natRange : ∀ (n s x : Nat), x ∈ natRange s n → s ≤ x ∧ x < s + n
  | 0, _, _, h => by cases h
  | n + 1, s, x, h => by
    rcases List.mem_cons.mp h with rfl | h2
    · omega
    · have := mem_natRange n (s + 1) x h2
      omega

/-- The candidate size is bounded by the room left on the a side. -/
theorem candK_le_left (a b : List Char) (ahi bhi i j : Nat) :
    candK a b ahi bhi i j ≤ ahi - i :=
  le_trans (min_le_right _ _) (min_le_left _ _)

/-- The candidate size is bounded by the room left on the b side. -/
theorem candK_le_right (a b : List Char) (ahi bhi i j : Nat) :
    candK a b ahi bhi i j ≤ bhi - j :=
  le_trans (min_le_right _ _) (min_le_right _ _)

/-- Once the whole input is the best block, no later candidate replaces it. -/
theorem flmInner_fixed_self (l : List Char) (i j : Nat) (h : 1 ≤ i ∨ 1 ≤ j) :
    flmInner l l l.length l.length i ⟨0, 0, l.length⟩ j = ⟨0, 0, l.length⟩ := by
  have h1 : candK l l l.length l.length i j ≤ l.length - i := candK_le_left l l _ _ i j
  have h2 : candK l l l.length l.length i j ≤ l.length - j := candK_le_right l l _ _ i j
  unfold flmInner
  simp only
  rw [if_neg (by omega)]

/-- On identical inputs over the full window, the matcher selects the whole
input as the single matching block. -/
theorem findLongestMatch_self (l : List Char) (h : 0 < l.length) :
    findLongestMatch l l 0 l.length 0 l.length = ⟨0, 0, l.length⟩ := by
  obtain ⟨m, hm⟩ : ∃ m, l.length = m + 1 := ⟨l.length - 1, by omega⟩
  have hrange : natRange 0 l.length = 0 :: natRange 1 m := by rw [hm]; simp [natRange]
  have hcand00 : candK l l l.length l.length 0 0 = l.length := by
    unfold candK
    simp [commonLen_self l]
  have hG00 : flmInner l l l.length l.length 0 ⟨0, 0, 0⟩ 0 = ⟨0, 0, l.length⟩ := by
    unfold flmInner
    simp only
    rw [if_pos (by rw [hcand00]; omega), hcand00]
  have hF0 : flmOuter l l l.length l.length 0 ⟨0, 0, 0⟩ 0 = ⟨0, 0, l.length⟩ := by
    unfold flmOuter
    rw [Nat.sub_zero, hrange, List.foldl_cons, hG00]
    exact foldl_fixed _ _ _ (fun j hj =>
      flmInner_fixed_self l 0 j (Or.inr (mem_natRange m 1 j hj).1))
  have hFfix : ∀ i, 1 ≤ i →
      flmOuter l l l.length l.length 0 ⟨0, 0, l.length⟩ i = ⟨0, 0, l.length⟩ := by
    intro i hi
    unfold flmOuter
    exact foldl_fixed _ _ _ (fun j _ => flmInner_fixed_self l i j (Or.inl hi))
  unfold findLongestMatch
  rw [Nat.sub_zero, hrange, List.foldl_cons, hF0]
  exact foldl_fixed _ _ _ (fun i hi => hFfix i (mem_natRange m 1 i hi).1)

/-- The total matching size of a list against itself is its length. -/
theorem matchingTotal_self (l : List Char) : matchingTotal l l = l.length := by
  unfold matchingTotal
  cases hn : l.length with
  | zero => rfl
  | succ m =>
    have hflm := findLongestMatch_self l (by omega)
    rw [hn] at hflm
    simp only [matchingTotalF]
    rw [hflm]
    simp only
    rw [if_pos (by omega), if_neg (by omega), if_neg (by omega)]

/-- The ratio of a list with itself is 1 (difflib returns 1.0 on two empty
inputs as well). -/
theorem ratio_self (l : List Char) : ratio l l = 1 := by
  unfold ratio
  cases l with
  | nil => rfl
  | cons c cs =>
    rw [if_neg (by simp)]
    rw [matchingTotal_self]
    have hlen : (0 : ℚ) < ((c :: cs).length : ℚ) := by
      have : 0 < (c :: cs).length := by simp
      exact_mod_cast this
    push_cast
    field_simp
    ring

-- ===========================================================================
-- C5
-- ===========================================================================

/-- Claim C5: the similarity of any non-empty string with itself is 1 (in
particular for long strings and for strings made only of stop words; difflib
agrees with the heuristic-free matcher on identical inputs, see
findLongestMatch). -/
theorem similarity_self (s : String) (hne : s ≠ "") : _calculate_similarity s s = 1 := by
  unfold _calculate_similarity
  simp only
  by_cases hw : ((splitWs (pyLower s)).toFinset \ stop_words.toFinset).Nonempty
  · rw [if_pos ⟨hw, hw⟩]
    rw [ratio_self]
    rw [Finset.inter_self, Finset.union_self]
    have hcard : 0 < ((splitWs (pyLower s)).toFinset \ stop_words.toFinset).card :=
      Finset.card_pos.mpr hw
    rw [if_pos hcard]
    rw [div_self (by
      have hne2 : ((splitWs (pyLower s)).toFinset \ stop_words.toFinset).card ≠ 0 := by omega
      exact_mod_cast hne2)]
    norm_num
  · rw [if_neg (by intro hcon; exact hw hcon.1)]
    exact ratio_self _

/-- Witness for C5: a concrete non-empty Russian question is fully similar to
itself, and so is a string consisting only of stop words. -/
theorem similarity_self_witness :
    _calculate_similarity "Вводный инструктаж" "Вводный инструктаж" = 1
    ∧ _calculate_similarity "что как" "что как" = 1 := by
  constructor
  · exact similarity_self "Вводный инструктаж" (by decide)
  · exact similarity_self "что как" (by decide)

-- ===========================================================================
-- C2
-- ===========================================================================

/-- The second components of scored entries are the entries, in corpus order. -/
theorem scoreAll_entry_mem (faq : List FAQEntry) (query : String)
    (p : Nat × FAQEntry × ℚ) (hp : p ∈ scoreAll faq query) :
    p.2.1 ∈ faq ∧ p.2.2 = _calculate_similarity query p.2.1.question := by
  obtain ⟨q, hq, rfl⟩ := List.mem_map.mp hp
  have h1 : q.2 ∈ faq := by
    have h2 := List.mem_map_of_mem Prod.snd hq
    rwa [List.enum_eq_enumFrom, List.enumFrom_map_snd] at h2
  exact ⟨h1, rfl⟩

/-- The corpus positions tagged by scoreAll are pairwise distinct. -/
theorem scoreAll_nodup_fst (faq : List FAQEntry) (query : String) :
    ((scoreAll faq query).map Prod.fst).Nodup := by
  unfold scoreAll
  rw [List.map_map]
  have he : (Prod.fst ∘ fun p : Nat × FAQEntry =>
      (p.1, p.2, _calculate_similarity query p.2.question)) = Prod.fst := by
    funext p
    rfl
  rw [he]
  exact List.nodup_enum_map_fst faq

/-- Claim C2: find_relevant_questions returns at most top_k results, every
returned score is at least the threshold, scores are sorted in descending
order, and on the position-instrumented result equal scores keep the corpus
order (strictly increasing positions), the plain result being its projection. -/
theorem find_relevant_shape (faq : List FAQEntry) (query : String) (threshold : ℚ)
    (top_k : Nat) :
    (find_relevant_questions faq query threshold top_k).length ≤ top_k
    ∧ (∀ p ∈ find_relevant_questions faq query threshold top_k, threshold ≤ p.2)
    ∧ (find_relevant_questions faq query threshold top_k).Pairwise
        (fun a b => b.2 ≤ a.2)
    ∧ (find_relevant_idx faq query threshold top_k).Pairwise
        (fun a b => a.2.2 = b.2.2 → a.1 < b.1)
    ∧ find_relevant_questions faq query threshold top_k
        = (find_relevant_idx faq query threshold top_k).map (fun p => (p.2.1, p.2.2)) := by
  by_cases hemp : faq.isEmpty
  · simp [find_relevant_questions, find_relevant_idx, hemp]
  · have hri : find_relevant_idx faq query threshold top_k
        = (((scoreAll faq query).filter (fun p => threshold ≤ p.2.2)).insertionSort
            relOrder).take top_k := by
      simp [find_relevant_idx, hemp]
    have hsorted : (find_relevant_idx faq query threshold top_k).Pairwise relOrder := by
      rw [hri]
      exact (List.sorted_insertionSort relOrder _).sublist (List.take_sublist _ _)
    have hmem_filter : ∀ p ∈ find_relevant_idx faq query threshold top_k,
        p ∈ (scoreAll faq query).filter (fun p => threshold ≤ p.2.2) := by
      intro p hp
      rw [hri] at hp
      exact (List.perm_insertionSort relOrder _).mem_iff.mp (List.mem_of_mem_take hp)
    have hnodup : ((find_relevant_idx faq query threshold top_k).map Prod.fst).Nodup := by
      have h1 : List.Sublist
          (((scoreAll faq query).filter (fun p => threshold ≤ p.2.2)).map Prod.fst)
          ((scoreAll faq query).map Prod.fst) :=
        (List.filter_sublist _).map Prod.fst
      have h2 := (scoreAll_nodup_fst faq query).sublist h1
      have h3 : List.Perm
          ((((scoreAll faq query).filter (fun p => threshold ≤ p.2.2)).insertionSort
            relOrder).map Prod.fst)
          (((scoreAll faq query).filter (fun p => threshold ≤ p.2.2)).map Prod.fst) :=
        (List.perm_insertionSort relOrder _).map Prod.fst
      have h4 := (h3.nodup_iff).mpr h2
      rw [hri]
      exact h4.sublist ((List.take_sublist _ _).map Prod.fst)
    refine ⟨?_, ?_, ?_, ?_, rfl⟩
    · rw [find_relevant_questions, List.length_map, hri]
      exact List.length_take_le _ _
    · intro p hp
      obtain ⟨q, hq, rfl⟩ := List.mem_map.mp hp
      have h5 := hmem_filter q hq
      have h6 := List.of_mem_filter h5
      simpa using h6
    · rw [find_relevant_questions]
      refine List.Pairwise.map _ ?_ hsorted
      intro a b hab
      rcases hab with h | ⟨h, _⟩
      · exact le_of_lt h
      · exact le_of_eq h.symm
    · have hne : (find_relevant_idx faq query threshold top_k).Pairwise
          (fun a b => a.1 ≠ b.1) := by
        have := List.pairwise_map.mp hnodup
        exact this.imp (fun h => h)
      refine (hsorted.and hne).imp ?_
      intro a b hab heq
      rcases hab.1 with h | ⟨_, h⟩
      · rw [heq] at h
        exact absurd h (lt_irrefl _)
      · exact lt_of_le_of_ne h hab.2

/-- Witness for C2: on a two-entry corpus the result respects the top_k bound
and the returned score clears the threshold. -/
theorem find_relevant_shape_witness :
    (find_relevant_questions [⟨"abc", "a1", "r1", "", "b1", "d1"⟩,
        ⟨"zzz", "a2", "r2", "", "b2", "d2"⟩] "abc" (1/2) 5).length ≤ 5
    ∧ (1/2 : ℚ) ≤ (((⟨"abc", "a1", "r1", "", "b1", "d1"⟩ : FAQEntry), (1 : ℚ))).2 := by
  constructor
  · exact (find_relevant_shape [⟨"abc", "a1", "r1", "", "b1", "d1"⟩,
      ⟨"zzz", "a2", "r2", "", "b2", "d2"⟩] "abc" (1/2) 5).1
  · exact (find_relevant_shape [⟨"abc", "a1", "r1", "", "b1", "d1"⟩,
      ⟨"zzz", "a2", "r2", "", "b2", "d2"⟩] "abc" (1/2) 5).2.1
      (⟨"abc", "a1", "r1", "", "b1", "d1"⟩, 1) (by with_unfolding_all decide)

-- ===========================================================================
-- C3
-- ===========================================================================

/-- When every corpus entry scores below the threshold, the search is empty. -/
theorem find_relevant_none (faq : List FAQEntry) (query : String) (threshold : ℚ)
    (top_k : Nat)
    (hlow : ∀ e ∈ faq, _calculate_similarity query e.question < threshold) :
    find_relevant_questions faq query threshold top_k = [] := by
  by_cases hemp : faq.isEmpty
  · simp [find_relevant_questions, find_relevant_idx, hemp]
  · have hfil : (scoreAll faq query).filter (fun p => threshold ≤ p.2.2) = [] := by
      rw [List.filter_eq_nil_iff]
      intro p hp
      obtain ⟨hmem, hscore⟩ := scoreAll_entry_mem faq query p hp
      have := hlow p.2.1 hmem
      rw [← hscore] at this
      simpa using not_le.mpr this
    simp [find_relevant_questions, find_relevant_idx, hemp, hfil]

/-- Claim C3: get_answer_with_validation returns none when no corpus entry
reaches the 0.5 threshold, and also on the (never satisfiable at threshold
0.5) code path where the best match scores below the 0.3 floor; when a match
qualifies and the URL check comes back failed, the match is still returned,
with url_valid = false and url_status = null. -/
theorem answer_validation_behavior (faq : List FAQEntry) (query : String)
    (urlCheck : String → Bool × Option Int) :
    ((∀ e ∈ faq, _calculate_similarity query e.question < 1/2) →
      get_answer_with_validation faq query true urlCheck = none)
    ∧ (∀ b s rest, find_relevant_questions faq query (1/2) 1 = (b, s) :: rest →
        s < 3/10 → get_answer_with_validation faq query true urlCheck = none)
    ∧ (∀ b s rest, find_relevant_questions faq query (1/2) 1 = (b, s) :: rest →
        ¬ s < 3/10 → ¬ b.legal_url = "" →
        check_url_validity urlCheck b.legal_url = (false, none) →
        get_answer_with_validation faq query true urlCheck
          = some ⟨b.question, b.short_answer, b.legal_reference, b.legal_url, b.block,
              b.current_as_of, s, some false, none⟩) := by
  refine ⟨?_, ?_, ?_⟩
  · intro hlow
    rw [get_answer_with_validation, find_relevant_none faq query (1/2) 1 hlow]
  · intro b s rest hrel hs
    rw [get_answer_with_validation, hrel]
    simp only [if_pos hs]
  · intro b s rest hrel hs hurl hchk
    rw [get_answer_with_validation, hrel]
    simp only [if_neg hs]
    rw [if_pos ⟨trivial, hurl⟩, hchk]
    rfl

/-- Witness for C3: a corpus whose single entry does not match the query gives
none, and a matching entry with a failing URL check is still returned with
url_valid = false and url_status = null. -/
theorem answer_validation_behavior_witness :
    get_answer_with_validation [⟨"xyz", "ans", "ref", "", "blk", "2024"⟩] "abc" true
      (fun _ => (false, none)) = none
    ∧ get_answer_with_validation [⟨"abc", "ans", "ref", "http://x", "blk", "2024"⟩] "abc" true
      (fun _ => (false, none))
      = some ⟨"abc", "ans", "ref", "http://x", "blk", "2024", 1, some false, none⟩ := by
  constructor
  · exact (answer_validation_behavior [⟨"xyz", "ans", "ref", "", "blk", "2024"⟩] "abc"
      (fun _ => (false, none))).1 (fun e he => by
        rw [List.mem_singleton.mp he]
        with_unfolding_all decide)
  · exact (answer_validation_behavior [⟨"abc", "ans", "ref", "http://x", "blk", "2024"⟩] "abc"
      (fun _ => (false, none))).2.2 ⟨"abc", "ans", "ref", "http://x", "blk", "2024"⟩ 1 []
      (by with_unfolding_all rfl) (by norm_num) (by decide) (by with_unfolding_all rfl)

-- ===========================================================================
-- C7
-- ===========================================================================

/-- A match whose URL merely mentions an allow-listed domain in its query
string. -/
def answerWithSubstrUrl : AnswerData :=
  ⟨"q", "a", "Приказ № 33", "http://x.ru/?a=consultant.ru", "b", "2024", 1/2, none, none⟩

/-- Counterexample for C7 as stated: the legal reference has no labour-code
citation and the URL's domain x.ru is not allow-listed, yet because the URL
contains consultant.ru as a substring of its query, _is_government_source
accepts it and the formatted answer shows the URL instead of omitting it. -/
theorem format_url_substring_counterexample :
    containsStr (answerWithSubstrUrl.legal_reference) "ТК РФ" = false
    ∧ _is_government_source answerWithSubstrUrl.legal_url = true
    ∧ (format_answer_parts answerWithSubstrUrl).contains
        ("⚠️ <b>Ссылка:</b> http://x.ru/?a=consultant.ru") = true := by
  refine ⟨?_, ?_, ?_⟩
  · with_unfolding_all rfl
  · with_unfolding_all rfl
  · with_unfolding_all rfl

/-- Claim C7 (amended): the URL is suppressed and the advisory note shown
exactly when _is_government_source rejects the stored URL, that is when the
lowercased URL contains no allow-listed domain name as a substring anywhere
(not only as its domain) and does not contain .gov.ru; a URL containing an
allow-listed domain in its path or query is treated as governmental and is
shown (see the counterexample). -/
theorem format_omits_untrusted_url (d : AnswerData)
    (href : containsStr d.legal_reference "ТК РФ" = false)
    (hgov : _is_government_source d.legal_url = false)
    (hne : ¬ d.legal_reference = "") :
    format_answer_parts d =
      ["📚 <b>Найдено в базе знаний</b>",
       "<b>Категория:</b> " ++ d.block,
       "",
       "<b>Вопрос:</b> " ++ d.question,
       "",
       "<b>Ответ:</b> " ++ d.answer,
       "",
       "<b>Правовая база:</b> " ++ d.legal_reference,
       advisoryNote,
       "",
       "<i>Актуально на: " ++ d.current_as_of ++ "</i>",
       "<i>Степень совпадения: " ++ pctStr d.similarity_score ++ "</i>"] := by
  unfold format_answer_parts
  simp only
  rw [if_neg (by rw [href]; simp)]
  rw [if_neg (by rw [hgov]; simp)]
  rw [if_pos hne]
  rfl

/-- Witness for the amended C7: a non-government URL is dropped and only the
reference with the advisory note is rendered. -/
theorem format_omits_untrusted_url_witness :
    format_answer_parts ⟨"q", "a", "Приказ № 33", "http://blog.example.ru/a", "b",
        "2024", 1/2, none, none⟩ =
      ["📚 <b>Найдено в базе знаний</b>",
       "<b>Категория:</b> b",
       "",
       "<b>Вопрос:</b> q",
       "",
       "<b>Ответ:</b> a",
       "",
       "<b>Правовая база:</b> Приказ № 33",
       advisoryNote,
       "",
       "<i>Актуально на: 2024</i>",
       "<i>Степень совпадения: 50%</i>"] := by
  have h := format_omits_untrusted_url
    ⟨"q", "a", "Приказ № 33", "http://blog.example.ru/a", "b", "2024", 1/2, none, none⟩
    (by with_unfolding_all rfl) (by with_unfolding_all rfl) (by decide)
  rw [h]
  with_unfolding_all rfl

-- ===========================================================================
-- C9
-- ===========================================================================

/-- A one-entry corpus used to exhibit the reload behaviour. -/
def keptEntry : FAQEntry := ⟨"abc", "ans", "ref", "", "blk", "2024"⟩

/-- Counterexample for C9 as stated: when a reload fails on a knowledge base
whose corpus is non-empty, the corpus is retained, not emptied, and a
subsequent search still returns a match. -/
theorem reload_failure_keeps_corpus_counterexample :
    reload_faq [keptEntry] none = [keptEntry]
    ∧ find_relevant_questions (reload_faq [keptEntry] none) "abc" (1/2) 5
      = [(keptEntry, 1)] := by
  constructor
  · rfl
  · with_unfolding_all rfl

/-- Claim C9 (amended): a load failure at construction leaves the knowledge
base empty, and every search on it returns no results; a load failure on
reload never raises and leaves the previous corpus in place (so the base
stays empty only if it already was, as the counterexample shows). -/
theorem load_failure_semantics :
    mkKnowledgeBase none = []
    ∧ (∀ (query : String) (threshold : ℚ) (top_k : Nat),
        find_relevant_questions (mkKnowledgeBase none) query threshold top_k = [])
    ∧ (∀ current : List FAQEntry, reload_faq current none = current) := by
  refine ⟨rfl, ?_, fun _ => rfl⟩
  intro query threshold top_k
  simp [find_relevant_questions, find_relevant_idx, mkKnowledgeBase, _load_faq]

/-- Witness for the amended C9: the failed-construction base yields no match
for a concrete query. -/
theorem load_failure_semantics_witness :
    find_relevant_questions (mkKnowledgeBase none) "abc" (1/2) 5 = [] :=
  load_failure_semantics.2.1 "abc" (1/2) 5
